import Mathlib

/- Shallow embedding of the two dialog modules of this repository:
   src/electroncash_gui/qt/consolidate_coins_dialog.py and
   src/gui/qt/bfp_upload_file_dialog.py.

   Qt signal emissions are modelled as an ordered event trace.  The worker
   runs its whole loop synchronously on one thread, so the run is a pure
   function of the items the external AddressConsolidator iterator yields and
   of the value the interruption flag has at each check point (the flag is
   written by the UI thread under a mutex; it is read once per loop
   iteration, and we abstract the sequence of values those reads return as a
   function from the check-point index to Bool). -/

namespace ConsolidateCoins

/-- The TransactionsStatus enumeration of consolidate_coins_dialog.py. -/
inductive TransactionsStatus
  | INTERRUPTED
  | NOT_STARTED
  | SELECTING
  | BUILDING
  | FINISHED
  | NO_RESULT
deriving DecidableEq, Repr

/-- One Qt signal emission of ConsolidateWorker, in emission order.  Tx is
the type of the transactions produced by the external iterator. -/
inductive WorkerEvent (Tx : Type)
  | status_changed (s : TransactionsStatus)
  | progress (n : ℕ)
  | transactions_ready (txs : List Tx)
  | finished
deriving DecidableEq

/-- The loop body of ConsolidateWorker.build_transactions.  The Python
for-loop draws the next item from the iterator, then checks
was_interruption_requested; if set it emits INTERRUPTED and finished and
returns (discarding the accumulator), otherwise it appends the item and
emits the 1-based progress count.  On exhaustion it emits FINISHED only for
a non-empty accumulator, then transactions_ready and finished.
flag i is the value read at the i-th check point; i is the 0-based loop
index; acc is the transactions list accumulated so far. -/
def buildLoop (flag : ℕ → Bool) : List Tx → ℕ → List Tx → List (WorkerEvent Tx)
  | [], _, acc =>
      (if acc.isEmpty then [] else [.status_changed .FINISHED])
        ++ [.transactions_ready acc, .finished]
  | tx :: rest, i, acc =>
      if flag i then [.status_changed .INTERRUPTED, .finished]
      else .progress (i + 1) :: buildLoop flag rest (i + 1) (acc ++ [tx])

/-- ConsolidateWorker.build_transactions: emit BUILDING, then run the loop
over the items the iterator yields. -/
def build_transactions (flag : ℕ → Bool) (items : List Tx) : List (WorkerEvent Tx) :=
  .status_changed .BUILDING :: buildLoop flag items 0 []

/-- Number of items drawn from the iterator during the run of the loop:
each iteration of the Python for-loop draws exactly one item before the
check point, including the iteration that observes the interruption. -/
def drawCount (flag : ℕ → Bool) : List Tx → ℕ → ℕ
  | [], _ => 0
  | _ :: rest, i => if flag i then 1 else 1 + drawCount flag rest (i + 1)

/-- The mutable state of ConsolidateWorker relevant to interruption: the
interrupt flag (the mutex serializes the flag accesses, so the interleaved
executions are exactly the sequential ones modelled here). -/
structure ConsolidateWorker where
  interrupt : Bool
deriving DecidableEq

/-- Worker initialization sets interrupt to False. -/
def ConsolidateWorker.init : ConsolidateWorker := { interrupt := false }

/-- request_interruption sets the flag to True under the lock. -/
def ConsolidateWorker.request_interruption (w : ConsolidateWorker) : ConsolidateWorker :=
  { w with interrupt := true }

/-- was_interruption_requested reads the flag under the lock. -/
def ConsolidateWorker.was_interruption_requested (w : ConsolidateWorker) : Bool :=
  w.interrupt

/-- The operations that touch the interrupt flag. -/
inductive WorkerOp
  | request_interruption
  | was_interruption_requested

/-- Effect of one operation on the worker state: only request_interruption
writes the flag; was_interruption_requested leaves the state unchanged. -/
def applyOp (w : ConsolidateWorker) : WorkerOp → ConsolidateWorker
  | .request_interruption => w.request_interruption
  | .was_interruption_requested => w

/-- State of TransactionsPage relevant to status classification. -/
structure TransactionsPage (Tx : Type) where
  status : TransactionsStatus
  displayed_transactions : List Tx

/-- TransactionsPage.update_status stores the new status (label refresh and
completeChanged emission omitted: they do not change this state). -/
def TransactionsPage.update_status (p : TransactionsPage Tx) (s : TransactionsStatus) :
    TransactionsPage Tx :=
  { p with status := s }

/-- TransactionsPage.set_unsigned_transactions: an empty list is classified
as NO_RESULT; otherwise the transactions are handed to the display. -/
def TransactionsPage.set_unsigned_transactions (p : TransactionsPage Tx) (txs : List Tx) :
    TransactionsPage Tx :=
  if txs.isEmpty then p.update_status .NO_RESULT
  else { p with displayed_transactions := txs }

/-- State of OutputsPage relevant to destination-address validation.
Address is the abstract type of parsed addresses of the external wallet
library.  The two radio buttons are exclusive, so one Boolean records
whether the single-address option (rather than the same-address option) is
selected. -/
structure OutputsPage (Address : Type) where
  inputs_address : Address
  single_address_selected : Bool
  output_address : Option Address

/-- OutputsPage.validate_address stores the parse result of the entered
text, None when parsing fails.  Modelled from the spec: Address.from_string
of the external wallet library (absent from src/) is abstracted as an
arbitrary parser yielding a structured address or none for a validation
error (the AddressError except branch of the source). -/
def OutputsPage.validate_address (parse : String → Option Address)
    (p : OutputsPage Address) (text : String) : OutputsPage Address :=
  { p with output_address := parse text }

/-- OutputsPage.isComplete: not single_address selected, or a parsed output
address is present. -/
def OutputsPage.isComplete (p : OutputsPage Address) : Bool :=
  !p.single_address_selected || p.output_address.isSome

/-- OutputsPage.get_output_address: the inputs address when the
same-address option is selected, the parsed address otherwise. -/
def OutputsPage.get_output_address (p : OutputsPage Address) : Option Address :=
  if !p.single_address_selected then some p.inputs_address else p.output_address

/-- The unit conversion factor of the dialog module: satoshis per BCH. -/
def sats_to_BCH_conv_factor : ℕ := 100000000

/-- Round a rational to the nearest integer, ties to the even integer (the
IEEE-754 default rounding direction). -/
def roundHalfEven (q : ℚ) : ℤ :=
  if q - ⌊q⌋ < 1 / 2 then ⌊q⌋
  else if 1 / 2 < q - ⌊q⌋ then ⌊q⌋ + 1
  else if ⌊q⌋ % 2 = 0 then ⌊q⌋ else ⌊q⌋ + 1

/-- Rounding of an exact rational value to the nearest IEEE-754 binary64
value (53 significant bits, ties to even).  This is exact for the normal
range; the magnitudes arising in this dialog are far from the subnormal
and overflow thresholds, where this model and binary64 agree. -/
def roundDouble (q : ℚ) : ℚ :=
  if q = 0 then 0
  else
    let s : ℚ := if 0 ≤ q then 1 else -1
    let e : ℤ := Int.log 2 |q| - 52
    s * (roundHalfEven (|q| / 2 ^ e) : ℚ) * 2 ^ e

/-- Python int() applied to a float value: truncation toward zero. -/
def pyInt (q : ℚ) : ℤ :=
  if 0 ≤ q then ⌊q⌋ else ⌈q⌉

/-- State of CoinSelectionPage relevant to the value filters.  Each
QDoubleSpinBox holds a binary64 value, embedded as the exact rational that
value denotes. -/
structure CoinSelectionPage where
  filter_by_min_value_checked : Bool
  minimum_value_sb : ℚ
  filter_by_max_value_checked : Bool
  maximum_value_sb : ℚ

/-- CoinSelectionPage.get_minimum_value: None when the filter checkbox is
unchecked, otherwise int(sats_to_BCH_conv_factor * value) where the
multiplication is a binary64 multiplication (the factor 100000000 is
exactly representable, so only the product is rounded). -/
def CoinSelectionPage.get_minimum_value (p : CoinSelectionPage) : Option ℤ :=
  if !p.filter_by_min_value_checked then none
  else some (pyInt (roundDouble ((sats_to_BCH_conv_factor : ℚ) * p.minimum_value_sb)))

/-- CoinSelectionPage.get_maximum_value, symmetric to get_minimum_value. -/
def CoinSelectionPage.get_maximum_value (p : CoinSelectionPage) : Option ℤ :=
  if !p.filter_by_max_value_checked then none
  else some (pyInt (roundDouble ((sats_to_BCH_conv_factor : ℚ) * p.maximum_value_sb)))

/-- The binary64 value the minimum-value spin box stores while displaying
0.00000546 (in BCH): the representable value nearest the exact decimal. -/
def spin_value_546 : ℚ := roundDouble (546 / 100000000)

end ConsolidateCoins

namespace BfpUpload

variable {Tx β Addr : Type}

/-- The chunking loop of sign_txns: repeated f.read(220) calls split the
file content into consecutive 220-byte pieces; the read at end of file
returns the empty bytes object and breaks the loop. -/
def readChunksLoop : List β → List (List β)
  | [] => []
  | b :: rest => ((b :: rest).take 220) :: readChunksLoop ((b :: rest).drop 220)
termination_by l => l.length
decreasing_by simp [List.length_drop]; omega

/-- Net effect of the recursive sign_done callback chain on the pending
transaction batch: as long as the processed count has not passed the chunk
total and the final metadata transaction has not been created, each
successful signing appends the transaction getUploadTxn builds for the
next chunk (none past the end of the chunk list, the Python IndexError
case).  upload abstracts getUploadTxn of the external bitcoinfiles
library: it receives the chunk index and the chunk bytes and returns the
built transaction together with the new final_metadata_txn_created flag.
Signing by the main window is taken to succeed, and getUploadTxn to not
raise NotEnoughFunds: a failure merely stops the callback chain early. -/
def build_batch (upload : ℕ → Option (List β) → Tx × Bool) (M : ℕ)
    (chunks : List (List β)) : ℕ → Bool → List Tx
  | p, final =>
    if h : p ≤ M ∧ final = false then
      (upload p chunks[p]?).1
        :: build_batch upload M chunks (p + 1) (upload p chunks[p]?).2
    else []
termination_by p _ => M + 1 - p
decreasing_by omega

/-- The BitcoinFilesUploadDialog state touched by select_file and
sign_txns. -/
structure UploadDialog (Tx β : Type) where
  tx_batch : List Tx
  chunks_processed : ℕ
  chunks_total : ℕ
  sign_button_enabled : Bool
  upload_button_enabled : Bool
  is_dirty : Bool

/-- The field resets select_file performs before invoking sign_txns. -/
def select_file_reset (d : UploadDialog Tx β) : UploadDialog Tx β :=
  { d with tx_batch := [], chunks_processed := 0, chunks_total := 0 }

/-- The user-visible outcome of one sign_txns call. -/
inductive SignOutcome
  | prev_hash_invalid
  | receiver_invalid
  | no_file
  | file_too_large
  | insufficient_funds
  | signed
deriving DecidableEq

/-- BitcoinFilesUploadDialog.sign_txns.  The guards run in source order:
the previous-hash length check, the receiver address parse (parse_receiver
abstracts Address.from_string, none for the Base58Error branch), the
filename check, the 5261-byte size check.  Past the guards, the funding
transaction built by the external getFundingTxn (funding, an error exactly
when that call raises NotEnoughFunds) is appended, the file is cut into
220-byte chunks, and the sign_done callback chain signs transactions and
extends the batch; on completion the sign button is disabled, the upload
button enabled and the dirty flag cleared.  content is the byte string the
single f.read() call returns. -/
def sign_txns (parse_receiver : String → Option Addr) (funding : Except Unit Tx)
    (upload : ℕ → Option (List β) → Tx × Bool)
    (prev_hash receiver_text filename : String) (content : List β)
    (d : UploadDialog Tx β) : UploadDialog Tx β × SignOutcome :=
  if prev_hash ≠ "" ∧ prev_hash.length ≠ 64 then (d, .prev_hash_invalid)
  else if receiver_text ≠ "" ∧ (parse_receiver receiver_text).isNone then
    (d, .receiver_invalid)
  else if filename = "" then (d, .no_file)
  else if 5261 < content.length then (d, .file_too_large)
  else
    match funding with
    | .error _ => (d, .insufficient_funds)
    | .ok ftx =>
      let chunks := readChunksLoop content
      let appended := build_batch upload chunks.length chunks 0 false
      ({ d with
          tx_batch := d.tx_batch ++ ftx :: appended,
          chunks_total := d.chunks_total + chunks.length,
          chunks_processed := d.chunks_processed + appended.length,
          sign_button_enabled := false,
          upload_button_enabled := true,
          is_dirty := false }, .signed)

end BfpUpload

namespace ConsolidateCoins

/-- When every check point up to exhaustion reads the flag as false, the
loop appends every item, emits one progress event per item with consecutive
1-based counts, and ends with the FINISHED status (for a non-empty result),
the result delivery and the finished signal. -/
theorem buildLoop_complete (flag : ℕ → Bool) (items : List Tx) :
    ∀ (i : ℕ) (acc : List Tx),
      (∀ j, j < i + items.length → flag j = false) →
      buildLoop flag items i acc =
        ((List.range' (i + 1) items.length).map WorkerEvent.progress)
          ++ (if (acc ++ items).isEmpty then [] else [.status_changed .FINISHED])
          ++ [.transactions_ready (acc ++ items), .finished] := by
  induction items with
  | nil => intro i acc h; rw [List.append_nil]; simp [buildLoop]
  | cons tx rest ih =>
    intro i acc h
    have hfi : flag i = false := h i (by simp)
    rw [buildLoop, hfi]
    rw [ih (i + 1) (acc ++ [tx]) (fun j hj => h j (by simp at hj ⊢; omega))]
    simp [List.range'_succ, List.append_assoc]

/-- When the check points 0 .. k-1 read false and check point k reads true
(k within the item count), the loop emits progress 1 .. k, then the
INTERRUPTED status and the finished signal, and returns without delivering
the accumulator. -/
theorem buildLoop_interrupt (flag : ℕ → Bool) :
    ∀ (k : ℕ) (items : List Tx) (i : ℕ) (acc : List Tx),
      k < items.length →
      (∀ j, j < k → flag (i + j) = false) →
      flag (i + k) = true →
      buildLoop flag items i acc =
        ((List.range' (i + 1) k).map WorkerEvent.progress)
          ++ [.status_changed .INTERRUPTED, .finished] := by
  intro k
  induction k with
  | zero =>
    intro items i acc hk hbefore hat
    match items, hk with
    | tx :: rest, _ =>
      rw [buildLoop]
      simp only [Nat.add_zero] at hat
      rw [hat]
      simp
  | succ k ih =>
    intro items i acc hk hbefore hat
    match items, hk with
    | tx :: rest, hk =>
      have hfi : flag i = false := by
        have := hbefore 0 (Nat.succ_pos k)
        simpa using this
      rw [buildLoop, hfi]
      rw [ih rest (i + 1) (acc ++ [tx]) (by simp at hk; omega)
        (fun j hj => by
          have := hbefore (j + 1) (by omega)
          simpa [Nat.add_assoc, Nat.add_comm 1 j] using this)
        (by
          have : i + 1 + k = i + (k + 1) := by omega
          rw [this]; exact hat)]
      simp [List.range'_succ]

/-- Under the hypotheses of buildLoop_interrupt, the loop draws exactly
k + 1 items from the iterator: one per completed iteration plus the one
drawn by the iteration that observes the interruption. -/
theorem drawCount_interrupt (flag : ℕ → Bool) :
    ∀ (k : ℕ) (items : List Tx) (i : ℕ),
      k < items.length →
      (∀ j, j < k → flag (i + j) = false) →
      flag (i + k) = true →
      drawCount flag items i = k + 1 := by
  intro k
  induction k with
  | zero =>
    intro items i hk hbefore hat
    match items, hk with
    | tx :: rest, _ =>
      rw [drawCount]
      simp only [Nat.add_zero] at hat
      rw [hat]
      simp
  | succ k ih =>
    intro items i hk hbefore hat
    match items, hk with
    | tx :: rest, hk =>
      have hfi : flag i = false := by
        have := hbefore 0 (Nat.succ_pos k)
        simpa using this
      rw [drawCount, hfi]
      rw [ih rest (i + 1) (by simp at hk; omega)
        (fun j hj => by
          have := hbefore (j + 1) (by omega)
          simpa [Nat.add_assoc, Nat.add_comm 1 j] using this)
        (by
          have : i + 1 + k = i + (k + 1) := by omega
          rw [this]; exact hat)]
      simp only [Bool.false_eq_true, if_false]
      omega

/-- Once the interrupt flag holds, no operation resets it. -/
theorem foldl_applyOp_interrupt (ops : List WorkerOp) :
    ∀ w : ConsolidateWorker, w.interrupt = true → (ops.foldl applyOp w).interrupt = true := by
  induction ops with
  | nil => intro w hw; simpa using hw
  | cons op rest ih =>
    intro w hw
    cases op with
    | request_interruption => exact ih _ rfl
    | was_interruption_requested => exact ih _ hw

/-- C1: for every producer yielding N >= 1 items, when no cancellation is
requested during the run, build_transactions emits progress events carrying
exactly the values 1, 2, ..., N in that order, then status FINISHED, then
transactions_ready with the list of all N produced items in production
order, then finished (the run opens with the BUILDING status emission). -/
theorem c1_complete_run_trace (flag : ℕ → Bool) (items : List Tx)
    (hflag : ∀ j, j < items.length → flag j = false) (hne : items ≠ []) :
    build_transactions flag items =
      .status_changed .BUILDING
        :: (((List.range' 1 items.length).map WorkerEvent.progress)
          ++ [.status_changed .FINISHED, .transactions_ready items, .finished]) := by
  rw [build_transactions, buildLoop_complete flag items 0 [] (by simpa using hflag)]
  simp [hne]

/-- Witness for C1 at the three-item producer [1, 2, 3] with the flag never
set. -/
theorem c1_witness :
    (∀ j, j < ([1, 2, 3] : List ℕ).length → (fun _ => false : ℕ → Bool) j = false)
      ∧ ([1, 2, 3] : List ℕ) ≠ []
      ∧ build_transactions (fun _ => false) ([1, 2, 3] : List ℕ) =
          .status_changed .BUILDING
            :: (((List.range' 1 ([1, 2, 3] : List ℕ).length).map WorkerEvent.progress)
              ++ [.status_changed .FINISHED, .transactions_ready [1, 2, 3], .finished]) :=
  ⟨fun _ _ => rfl, by decide,
    c1_complete_run_trace (fun _ => false) [1, 2, 3] (fun _ _ => rfl) (by decide)⟩

/-- C2: when the cancellation flag is first observed set at check point k
(reached, since k is below the item count), the worker emits progress
1 .. k, then status INTERRUPTED, then finished, and returns; the
transactions_ready signal is never emitted in that run. -/
theorem c2_interrupted_run_trace (flag : ℕ → Bool) (items : List Tx) (k : ℕ)
    (hk : k < items.length) (hbefore : ∀ j, j < k → flag j = false)
    (hat : flag k = true) :
    build_transactions flag items =
        .status_changed .BUILDING
          :: (((List.range' 1 k).map WorkerEvent.progress)
            ++ [.status_changed .INTERRUPTED, .finished])
      ∧ ∀ txs : List Tx,
          WorkerEvent.transactions_ready txs ∉ build_transactions flag items := by
  have h := buildLoop_interrupt flag k items 0 [] hk (by simpa using hbefore)
    (by simpa using hat)
  refine ⟨by rw [build_transactions, h], fun txs hmem => ?_⟩
  rw [build_transactions, h] at hmem
  simp at hmem

/-- Witness for C2 at the producer [5, 6, 7] with the flag first set at
check point 1. -/
theorem c2_witness :
    (1 < ([5, 6, 7] : List ℕ).length)
      ∧ (∀ j, j < 1 → (fun i => decide (1 ≤ i)) j = false)
      ∧ (fun i => decide (1 ≤ i)) 1 = true
      ∧ (build_transactions (fun i => decide (1 ≤ i)) ([5, 6, 7] : List ℕ) =
            .status_changed .BUILDING
              :: (((List.range' 1 1).map WorkerEvent.progress)
                ++ [.status_changed .INTERRUPTED, .finished])
          ∧ ∀ txs : List ℕ,
              WorkerEvent.transactions_ready txs
                ∉ build_transactions (fun i => decide (1 ≤ i)) ([5, 6, 7] : List ℕ)) :=
  ⟨by decide, fun j hj => by interval_cases j; rfl, rfl,
    c2_interrupted_run_trace (fun i => decide (1 ≤ i)) [5, 6, 7] 1 (by decide)
      (fun j hj => by interval_cases j; rfl) rfl⟩

/-- C3: for a producer yielding 0 items, the run never emits status
FINISHED: it emits BUILDING, then transactions_ready with the empty list,
then finished, whatever the flag does; and set_unsigned_transactions maps a
received empty list to status NO_RESULT. -/
theorem c3_empty_producer (Tx : Type) :
    (∀ flag : ℕ → Bool,
        build_transactions flag ([] : List Tx) =
            [.status_changed .BUILDING, .transactions_ready [], .finished]
          ∧ WorkerEvent.status_changed TransactionsStatus.FINISHED
              ∉ build_transactions flag ([] : List Tx))
      ∧ ∀ p : TransactionsPage Tx,
          (p.set_unsigned_transactions []).status = .NO_RESULT := by
  refine ⟨fun flag => ⟨by simp [build_transactions, buildLoop], ?_⟩, fun p => rfl⟩
  simp [build_transactions, buildLoop]

/-- C4 counterexample: for the producer yielding 0 items, with the
interruption requested before the run (the flag reads true at every check
point that could be reached), the run never emits status INTERRUPTED and
does emit transactions_ready, contradicting the claim as stated for every
producer. -/
theorem c4_counterexample :
    WorkerEvent.status_changed TransactionsStatus.INTERRUPTED
        ∉ build_transactions (fun _ => true) ([] : List ℕ)
      ∧ WorkerEvent.transactions_ready ([] : List ℕ)
          ∈ build_transactions (fun _ => true) ([] : List ℕ) := by
  decide

/-- C4 amended: for every producer yielding at least one item, if the
interruption is requested before the first item is drawn (the first check
point already reads the flag as true), the run emits status INTERRUPTED and
transactions_ready is never emitted. -/
theorem c4_cancel_before_first_item (flag : ℕ → Bool) (items : List Tx)
    (hne : items ≠ []) (h0 : flag 0 = true) :
    build_transactions flag items =
        [.status_changed .BUILDING, .status_changed .INTERRUPTED, .finished]
      ∧ ∀ txs : List Tx,
          WorkerEvent.transactions_ready txs ∉ build_transactions flag items := by
  obtain ⟨tx, rest, rfl⟩ := List.exists_cons_of_ne_nil hne
  refine ⟨by simp [build_transactions, buildLoop, h0], fun txs hmem => ?_⟩
  simp [build_transactions, buildLoop, h0] at hmem

/-- Witness for the amended C4 at the one-item producer [1] with the flag
set from the start. -/
theorem c4_witness :
    ([1] : List ℕ) ≠ []
      ∧ (fun _ => true : ℕ → Bool) 0 = true
      ∧ (build_transactions (fun _ => true) ([1] : List ℕ) =
            [.status_changed .BUILDING, .status_changed .INTERRUPTED, .finished]
          ∧ ∀ txs : List ℕ,
              WorkerEvent.transactions_ready txs
                ∉ build_transactions (fun _ => true) ([1] : List ℕ)) :=
  ⟨by decide, rfl, c4_cancel_before_first_item (fun _ => true) [1] (by decide) rfl⟩

/-- C5: if the flag becomes set after the k-th item has been produced and
before the (k plus 1)-th is drawn (check points 0 .. k-1 read false, check
point k reads true, k below the item count), then exactly one additional
item is drawn from the producer (so at most one), the INTERRUPTED status is
emitted, and the accumulated items are never delivered. -/
theorem c5_cancellation_latency (flag : ℕ → Bool) (items : List Tx) (k : ℕ)
    (hk : k < items.length) (hbefore : ∀ j, j < k → flag j = false)
    (hat : flag k = true) :
    drawCount flag items 0 = k + 1
      ∧ WorkerEvent.status_changed TransactionsStatus.INTERRUPTED
          ∈ build_transactions flag items
      ∧ ∀ txs : List Tx,
          WorkerEvent.transactions_ready txs ∉ build_transactions flag items := by
  have hdraw := drawCount_interrupt flag k items 0 hk (by simpa using hbefore)
    (by simpa using hat)
  have h := buildLoop_interrupt flag k items 0 [] hk (by simpa using hbefore)
    (by simpa using hat)
  refine ⟨hdraw, ?_, fun txs hmem => ?_⟩
  · rw [build_transactions, h]; simp
  · rw [build_transactions, h] at hmem
    simp at hmem

/-- Witness for C5 at the producer [5, 6, 7] with the flag first set at
check point 1: two items are drawn in total. -/
theorem c5_witness :
    (1 < ([5, 6, 7] : List ℕ).length)
      ∧ (∀ j, j < 1 → (fun i => decide (1 ≤ i)) j = false)
      ∧ (fun i => decide (1 ≤ i)) 1 = true
      ∧ (drawCount (fun i => decide (1 ≤ i)) ([5, 6, 7] : List ℕ) 0 = 1 + 1
          ∧ WorkerEvent.status_changed TransactionsStatus.INTERRUPTED
              ∈ build_transactions (fun i => decide (1 ≤ i)) ([5, 6, 7] : List ℕ)
          ∧ ∀ txs : List ℕ,
              WorkerEvent.transactions_ready txs
                ∉ build_transactions (fun i => decide (1 ≤ i)) ([5, 6, 7] : List ℕ)) :=
  ⟨by decide, fun j hj => by interval_cases j; rfl, rfl,
    c5_cancellation_latency (fun i => decide (1 ≤ i)) [5, 6, 7] 1 (by decide)
      (fun j hj => by interval_cases j; rfl) rfl⟩

/-- C6: the cancellation flag is monotone within a run: it is initialized
to false, request_interruption sets it to true, and since
was_interruption_requested leaves the state unchanged and
request_interruption only ever writes true, after any sequence of further
operations following a request_interruption every read returns true. -/
theorem c6_flag_monotone :
    ConsolidateWorker.init.interrupt = false
      ∧ (∀ w : ConsolidateWorker, w.request_interruption.interrupt = true)
      ∧ ∀ (w : ConsolidateWorker) (ops : List WorkerOp),
          (ops.foldl applyOp w.request_interruption).was_interruption_requested = true :=
  ⟨rfl, fun _ => rfl, fun _ ops => foldl_applyOp_interrupt ops _ rfl⟩

/-- C7: when the single-address option is selected and the entered text
fails to parse, validate_address sets output_address to None and
isComplete returns false, so the wizard cannot advance; isComplete returns
true whenever the same-address option is selected or a valid address has
been parsed. -/
theorem c7_address_validation_gates_run {Address : Type}
    (parse : String → Option Address) (p : OutputsPage Address) (text : String)
    (hfail : parse text = none) :
    ((p.validate_address parse text).output_address = none
        ∧ (p.single_address_selected = true →
            (p.validate_address parse text).isComplete = false))
      ∧ ∀ q : OutputsPage Address,
          (q.single_address_selected = false ∨ q.output_address.isSome) →
            q.isComplete = true := by
  refine ⟨⟨?_, fun hsel => ?_⟩, fun q hq => ?_⟩
  · simp [OutputsPage.validate_address, hfail]
  · simp [OutputsPage.validate_address, OutputsPage.isComplete, hfail, hsel]
  · rcases hq with h | h
    · simp [OutputsPage.isComplete, h]
    · simp [OutputsPage.isComplete, h]

/-- Witness for C7: a parser rejecting the entered text, with the
single-address option selected. -/
theorem c7_witness :
    ((fun _ => none : String → Option ℕ) "not an address" = none)
      ∧ ((((OutputsPage.mk 0 true (some 7)).validate_address
              (fun _ => none) "not an address").output_address = none
          ∧ ((OutputsPage.mk 0 true (some 7) : OutputsPage ℕ).single_address_selected
                = true →
              ((OutputsPage.mk 0 true (some 7)).validate_address
                  (fun _ => none) "not an address").isComplete = false))
        ∧ ∀ q : OutputsPage ℕ,
            (q.single_address_selected = false ∨ q.output_address.isSome) →
              q.isComplete = true) :=
  ⟨rfl, c7_address_validation_gates_run (fun _ => none)
    (OutputsPage.mk 0 true (some 7)) "not an address" rfl⟩

/-- Rounding to nearest with a fractional part below one half goes down. -/
theorem roundHalfEven_eq_of_floor_lt (q : ℚ) (f : ℤ) (hf : ⌊q⌋ = f)
    (hlt : q - f < 1 / 2) : roundHalfEven q = f := by
  rw [roundHalfEven, hf, if_pos hlt]

/-- Rounding to nearest with a fractional part above one half goes up. -/
theorem roundHalfEven_eq_of_floor_gt (q : ℚ) (f : ℤ) (hf : ⌊q⌋ = f)
    (hgt : 1 / 2 < q - f) : roundHalfEven q = f + 1 := by
  rw [roundHalfEven, hf, if_neg (by linarith), if_pos hgt]

/-- Evaluation rule for roundDouble on a positive value: once the binade
of q is located (2 raised to e bounds q from below, 2 raised to e plus one
from above), the rounded value is the rounded 53-bit mantissa scaled back
up. -/
theorem roundDouble_pos_eq (q : ℚ) (e : ℤ) (m : ℤ)
    (hq : 0 < q) (hlow : (2 : ℚ) ^ e ≤ q) (hhigh : q < (2 : ℚ) ^ (e + 1))
    (hm : roundHalfEven (q / 2 ^ (e - 52)) = m) :
    roundDouble q = (m : ℚ) * 2 ^ (e - 52) := by
  have hlog : Int.log 2 q = e := by
    have h1 : e ≤ Int.log 2 q := by
      rw [← Int.zpow_le_iff_le_log (by norm_num) hq]
      exact_mod_cast hlow
    have h2 : Int.log 2 q < e + 1 := by
      rw [← Int.lt_zpow_iff_log_lt (by norm_num) hq]
      exact_mod_cast hhigh
    omega
  unfold roundDouble
  rw [if_neg hq.ne']
  simp only [abs_of_pos hq, hlog, if_pos hq.le]
  rw [hm]
  ring

/-- The binary64 value displayed as 0.00000546 is the dyadic rational
3223015124558533 over 2 raised to 69 (the value the Python float literal
parses to): the exact decimal lies in the binade of exponent -18, and its
70-bit scaled mantissa rounds up, the fractional part being above one
half. -/
theorem spin_value_546_eq : spin_value_546 = 3223015124558533 / 2 ^ 69 := by
  have h := roundDouble_pos_eq (546 / 100000000) (-18) 6446030249117066
    (by norm_num) (by norm_num) (by norm_num)
    (by
      apply roundHalfEven_eq_of_floor_gt _ 6446030249117065
      · rw [Int.floor_eq_iff]
        constructor
        · push_cast; norm_num
        · push_cast; norm_num
      · push_cast; norm_num)
  rw [spin_value_546, h]
  norm_num

/-- The binary64 product of 100000000 and the stored spin-box value is
exactly 546: the exact product 546.00000000000005... lies within half an
ulp of 546 in the binade of exponent 9. -/
theorem roundDouble_product_546 :
    roundDouble ((sats_to_BCH_conv_factor : ℚ) * spin_value_546) = 546 := by
  have harg : (sats_to_BCH_conv_factor : ℚ) * spin_value_546
      = 1258990283030676953125 / 2 ^ 61 := by
    rw [spin_value_546_eq, sats_to_BCH_conv_factor]
    norm_num
  have h := roundDouble_pos_eq (1258990283030676953125 / 2 ^ 61) 9 4802666790125568
    (by norm_num) (by norm_num) (by norm_num)
    (by
      apply roundHalfEven_eq_of_floor_lt _ 4802666790125568
      · rw [Int.floor_eq_iff]
        constructor
        · push_cast; norm_num
        · push_cast; norm_num
      · push_cast; norm_num)
  rw [harg, h]
  norm_num

/-- Truncation of the exact value 546. -/
theorem pyInt_546 : pyInt (546 : ℚ) = 546 := by
  rw [pyInt, if_pos (by norm_num)]
  rw [show (546 : ℚ) = ((546 : ℤ) : ℚ) by norm_num, Int.floor_intCast]

/-- C8: with the minimum-value filter checked and the spin box holding the
binary64 value displayed as 0.00000546 BCH, get_minimum_value returns
exactly the integer 546 satoshis (conversion by the factor 100000000, the
binary64 rounding of the product accounted for exactly), and with the
maximum-value filter unchecked get_maximum_value returns None, so the
producer receives the pair (546, None). -/
theorem c8_minimum_value_pair_546 :
    ((CoinSelectionPage.mk true spin_value_546 false
          (roundDouble 21000000)).get_minimum_value,
      (CoinSelectionPage.mk true spin_value_546 false
          (roundDouble 21000000)).get_maximum_value)
      = (some 546, none) := by
  have hmin : (CoinSelectionPage.mk true spin_value_546 false
      (roundDouble 21000000)).get_minimum_value = some 546 := by
    rw [CoinSelectionPage.get_minimum_value]
    simp only [Bool.not_true, Bool.false_eq_true, if_false]
    rw [roundDouble_product_546, pyInt_546]
  rw [hmin]
  rfl

end ConsolidateCoins

namespace BfpUpload

variable {Tx β Addr : Type}

/-- The chunks concatenate back to the file content. -/
theorem readChunksLoop_flatten : ∀ c : List β, (readChunksLoop c).flatten = c
  | [] => by rw [readChunksLoop]; rfl
  | b :: rest => by
    rw [readChunksLoop, List.flatten_cons, readChunksLoop_flatten ((b :: rest).drop 220),
      List.take_append_drop]
termination_by c => c.length
decreasing_by simp [List.length_drop]; omega

/-- The number of chunks is the ceiling of the byte count divided by
220. -/
theorem readChunksLoop_length : ∀ c : List β,
    (readChunksLoop c).length = (c.length + 219) / 220
  | [] => by rw [readChunksLoop]; norm_num
  | b :: rest => by
    rw [readChunksLoop, List.length_cons,
      readChunksLoop_length ((b :: rest).drop 220), List.length_drop]
    simp only [List.length_cons]
    omega
termination_by c => c.length
decreasing_by simp [List.length_drop]; omega

/-- The i-th chunk is the 220-byte window of the content at offset
220 * i. -/
theorem readChunksLoop_get : ∀ (c : List β) (i : ℕ),
    i < (readChunksLoop c).length →
    (readChunksLoop c)[i]? = some ((c.drop (220 * i)).take 220)
  | [], i, hi => by rw [readChunksLoop] at hi; simp at hi
  | b :: rest, 0, hi => by
    rw [readChunksLoop]
    simp
  | b :: rest, i + 1, hi => by
    rw [readChunksLoop] at hi ⊢
    simp only [List.length_cons] at hi
    rw [List.getElem?_cons_succ,
      readChunksLoop_get ((b :: rest).drop 220) i (by omega), List.drop_drop]
    have h220 : 220 + 220 * i = 220 * (i + 1) := by ring
    rw [h220]
termination_by c _ _ => c.length
decreasing_by all_goals simp [List.length_drop]; omega

/-- Past the chunk total the callback chain appends nothing. -/
theorem build_batch_stop (upload : ℕ → Option (List β) → Tx × Bool) (M : ℕ)
    (chunks : List (List β)) (p : ℕ) (hp : M < p) (final : Bool) :
    build_batch upload M chunks p final = [] := by
  rw [build_batch, dif_neg (fun h => absurd h.1 (Nat.not_le.mpr hp))]

/-- Once the final metadata transaction has been created nothing more is
appended. -/
theorem build_batch_final (upload : ℕ → Option (List β) → Tx × Bool) (M : ℕ)
    (chunks : List (List β)) (p : ℕ) :
    build_batch upload M chunks p true = [] := by
  rw [build_batch, dif_neg (fun h => by simpa using h.2)]

/-- Under the protocol property that getUploadTxn reports the final
metadata transaction as created no earlier than on the last chunk
(modelled from the spec: the external library builds one transaction per
chunk, the final metadata possibly needing one extra transaction), the
callback chain appends one transaction per remaining chunk, in chunk
order, followed by at most one final metadata transaction. -/
theorem build_batch_prefix (upload : ℕ → Option (List β) → Tx × Bool) (M : ℕ)
    (chunks : List (List β))
    (hfin : ∀ (i : ℕ) (c : Option (List β)), i + 1 < M → (upload i c).2 = false) :
    ∀ p : ℕ, p < M →
      ∃ rest : List Tx, rest.length ≤ 1 ∧
        build_batch upload M chunks p false =
          ((List.range' p (M - p)).map (fun i => (upload i chunks[i]?).1)) ++ rest
  | p, hp => by
    by_cases hnext : p + 1 < M
    · obtain ⟨rest, hrest, heq⟩ := build_batch_prefix upload M chunks hfin (p + 1) hnext
      refine ⟨rest, hrest, ?_⟩
      rw [build_batch, dif_pos ⟨le_of_lt hp, rfl⟩, hfin p _ hnext, heq]
      rw [show M - p = (M - (p + 1)) + 1 by omega, List.range'_succ]
      simp
    · have hpM : p + 1 = M := by omega
      rw [build_batch, dif_pos ⟨le_of_lt hp, rfl⟩]
      rw [show M - p = 1 by omega]
      cases hf : (upload p chunks[p]?).2 with
      | true =>
        refine ⟨[], by simp, ?_⟩
        rw [hpM, build_batch_final, List.range'_succ]
        simp
      | false =>
        refine ⟨[(upload M chunks[M]?).1], by simp, ?_⟩
        rw [hpM, build_batch, dif_pos ⟨le_refl M, rfl⟩,
          build_batch_stop upload M chunks (M + 1) (by omega), List.range'_succ]
        simp
termination_by p _ => M - p
decreasing_by omega

/-- Unfolding of sign_txns on the successful path: empty previous-hash and
receiver fields, a file selected, content within the size bound, funding
available. -/
theorem sign_txns_success (parse_receiver : String → Option Addr) (ftx : Tx)
    (upload : ℕ → Option (List β) → Tx × Bool) (filename : String)
    (content : List β) (d : UploadDialog Tx β)
    (hname : filename ≠ "") (hsize : content.length ≤ 5261) :
    sign_txns parse_receiver (.ok ftx) upload "" "" filename content d =
      ({ d with
          tx_batch := d.tx_batch
            ++ ftx :: build_batch upload (readChunksLoop content).length
                (readChunksLoop content) 0 false,
          chunks_total := d.chunks_total + (readChunksLoop content).length,
          chunks_processed := d.chunks_processed
            + (build_batch upload (readChunksLoop content).length
                (readChunksLoop content) 0 false).length,
          sign_button_enabled := false,
          upload_button_enabled := true,
          is_dirty := false }, .signed) := by
  rw [sign_txns, if_neg (by simp), if_neg (by simp), if_neg hname, if_neg (by omega)]

/-- C9: for a selected file of S bytes (0 < S <= 5261), sign_txns splits
the content into ceil(S / 220) consecutive chunks of 220 bytes each except
the last, which holds S mod 220 bytes (220 when S is a multiple of 220);
the chunks concatenate back to the content, chunks_total ends at
ceil(S / 220), and the transaction batch starts with the funding
transaction followed by one transaction per chunk. -/
theorem c9_sign_txns_chunking (parse_receiver : String → Option Addr) (ftx : Tx)
    (upload : ℕ → Option (List β) → Tx × Bool) (filename : String)
    (content : List β) (d : UploadDialog Tx β) (S : ℕ)
    (hS : content.length = S) (hpos : 0 < S) (hmax : S ≤ 5261)
    (hname : filename ≠ "") (hbatch : d.tx_batch = []) (htotal : d.chunks_total = 0)
    (hfin : ∀ (i : ℕ) (c : Option (List β)),
      i + 1 < (readChunksLoop content).length → (upload i c).2 = false) :
    (readChunksLoop content).length = (S + 219) / 220
      ∧ (∀ i, i + 1 < (readChunksLoop content).length →
          ∃ piece, (readChunksLoop content)[i]? = some piece ∧ piece.length = 220)
      ∧ (∃ piece,
          (readChunksLoop content)[(readChunksLoop content).length - 1]?
              = some piece
            ∧ piece.length = if S % 220 = 0 then 220 else S % 220)
      ∧ (readChunksLoop content).flatten = content
      ∧ (sign_txns parse_receiver (.ok ftx) upload "" "" filename
            content d).1.chunks_total = (S + 219) / 220
      ∧ (sign_txns parse_receiver (.ok ftx) upload "" "" filename
            content d).1.tx_batch.take (1 + (readChunksLoop content).length)
          = ftx :: ((List.range' 0 (readChunksLoop content).length).map
              (fun i => (upload i (readChunksLoop content)[i]?).1))
      ∧ (sign_txns parse_receiver (.ok ftx) upload "" "" filename
            content d).2 = .signed := by
  have hlen : (readChunksLoop content).length = (S + 219) / 220 := by
    rw [readChunksLoop_length, hS]
  have hMpos : 0 < (readChunksLoop content).length := by rw [hlen]; omega
  have hrun := sign_txns_success parse_receiver ftx upload filename content d
    hname (by omega)
  refine ⟨hlen, ?_, ?_, readChunksLoop_flatten content, ?_, ?_, by rw [hrun]⟩
  · intro i hi
    refine ⟨(content.drop (220 * i)).take 220, readChunksLoop_get content i (by omega), ?_⟩
    rw [List.length_take, List.length_drop, hS]
    rw [hlen] at hi
    rw [Nat.min_eq_left (by omega)]
  · refine ⟨(content.drop (220 * ((readChunksLoop content).length - 1))).take 220,
      readChunksLoop_get content _ (by omega), ?_⟩
    rw [List.length_take, List.length_drop, hS, hlen]
    rw [Nat.min_eq_right (by omega)]
    by_cases h0 : S % 220 = 0
    · simp only [h0, if_true]
      omega
    · simp only [h0, if_false]
      omega
  · rw [hrun]
    simp only [htotal, Nat.zero_add, hlen]
  · rw [hrun]
    simp only [hbatch, List.nil_append]
    obtain ⟨rest, hrest, heq⟩ := build_batch_prefix upload
      (readChunksLoop content).length (readChunksLoop content) hfin 0 hMpos
    rw [Nat.sub_zero] at heq
    rw [show 1 + (readChunksLoop content).length
        = (readChunksLoop content).length + 1 by omega,
      List.take_succ_cons, heq,
      List.take_left' (by simp [List.length_range'])]

/-- Witness for C9 at a 250-byte file: two chunks of 220 and 30 bytes, a
funding transaction and one transaction per chunk. -/
theorem c9_witness :
    ((List.range 250).length = 250 ∧ 0 < 250 ∧ 250 ≤ 5261)
      ∧ ((readChunksLoop (List.range 250)).length = (250 + 219) / 220
        ∧ (∀ i, i + 1 < (readChunksLoop (List.range 250)).length →
            ∃ piece, (readChunksLoop (List.range 250))[i]? = some piece
              ∧ piece.length = 220)
        ∧ (∃ piece,
            (readChunksLoop (List.range 250))[(readChunksLoop
                (List.range 250)).length - 1]? = some piece
              ∧ piece.length = if 250 % 220 = 0 then 220 else 250 % 220)
        ∧ (readChunksLoop (List.range 250)).flatten = List.range 250
        ∧ (sign_txns (fun _ => none : String → Option ℕ) (Except.ok 100)
              (fun i _ => (i, false)) "" "" "file.bin" (List.range 250)
              (UploadDialog.mk [] 0 0 true false true)).1.chunks_total
            = (250 + 219) / 220
        ∧ (sign_txns (fun _ => none : String → Option ℕ) (Except.ok 100)
              (fun i _ => (i, false)) "" "" "file.bin" (List.range 250)
              (UploadDialog.mk [] 0 0 true false true)).1.tx_batch.take
              (1 + (readChunksLoop (List.range 250)).length)
            = 100 :: ((List.range' 0 (readChunksLoop (List.range 250)).length).map
                (fun i => ((fun i _ => (i, false) :
                    ℕ → Option (List ℕ) → ℕ × Bool) i
                  (readChunksLoop (List.range 250))[i]?).1))
        ∧ (sign_txns (fun _ => none : String → Option ℕ) (Except.ok 100)
              (fun i _ => (i, false)) "" "" "file.bin" (List.range 250)
              (UploadDialog.mk [] 0 0 true false true)).2 = .signed) :=
  ⟨⟨by simp, by norm_num, by norm_num⟩,
    c9_sign_txns_chunking (fun _ => none : String → Option ℕ) 100
      (fun i _ => (i, false)) "file.bin" (List.range 250)
      (UploadDialog.mk [] 0 0 true false true) 250
      (by simp) (by norm_num) (by norm_num) (by decide) rfl rfl
      (fun i c h => rfl)⟩

/-- C10: for a selected file whose content exceeds 5261 bytes, sign_txns
shows the size error and returns before building anything: the dialog
state is unchanged, so the transaction batch stays empty (no funding
transaction is created and nothing is signed) and the upload button stays
disabled. -/
theorem c10_oversized_file_rejected (parse_receiver : String → Option Addr)
    (funding : Except Unit Tx) (upload : ℕ → Option (List β) → Tx × Bool)
    (filename : String) (content : List β) (d : UploadDialog Tx β)
    (hname : filename ≠ "") (hsize : 5261 < content.length)
    (hbatch : d.tx_batch = []) (hupload : d.upload_button_enabled = false) :
    sign_txns parse_receiver funding upload "" "" filename content d
        = (d, .file_too_large)
      ∧ (sign_txns parse_receiver funding upload "" "" filename
            content d).1.tx_batch = []
      ∧ (sign_txns parse_receiver funding upload "" "" filename
            content d).1.upload_button_enabled = false := by
  have h : sign_txns parse_receiver funding upload "" "" filename content d
      = (d, .file_too_large) := by
    rw [sign_txns.eq_def, if_neg (by simp), if_neg (by simp), if_neg hname,
      if_pos hsize]
  exact ⟨h, by rw [h]; exact hbatch, by rw [h]; exact hupload⟩

/-- Witness for C10 at a 5262-byte file and a freshly reset dialog. -/
theorem c10_witness :
    (5261 < (List.replicate 5262 (0 : ℕ)).length)
      ∧ (sign_txns (fun _ => none : String → Option ℕ)
            (Except.error () : Except Unit ℕ) (fun i _ => (i, false)) "" ""
            "file.bin" (List.replicate 5262 (0 : ℕ))
            (UploadDialog.mk [] 0 0 true false true)
          = (UploadDialog.mk [] 0 0 true false true, .file_too_large)
        ∧ (sign_txns (fun _ => none : String → Option ℕ)
              (Except.error () : Except Unit ℕ) (fun i _ => (i, false)) "" ""
              "file.bin" (List.replicate 5262 (0 : ℕ))
              (UploadDialog.mk [] 0 0 true false true)).1.tx_batch = []
        ∧ (sign_txns (fun _ => none : String → Option ℕ)
              (Except.error () : Except Unit ℕ) (fun i _ => (i, false)) "" ""
              "file.bin" (List.replicate 5262 (0 : ℕ))
              (UploadDialog.mk [] 0 0 true false true)).1.upload_button_enabled
            = false) :=
  ⟨by rw [List.length_replicate]; norm_num,
    c10_oversized_file_rejected (fun _ => none) (Except.error ())
      (fun i _ => (i, false)) "file.bin" (List.replicate 5262 0)
      (UploadDialog.mk [] 0 0 true false true) (by decide)
      (by rw [List.length_replicate]; norm_num) rfl rfl⟩

end BfpUpload

